import Mathlib

/-!
Shallow embedding of the segment-table editor and the polling state
synchronizer of the minimax video-translation front end
(src/static/js/table-editor.js and src/static/js/main.js).

JavaScript specifics that matter here and how they are modelled:
* numbers appearing as `speed` are modelled as rationals;
* `parseFloat(v)` / `parseInt(v)` results are supplied as `Option`
  parameters (`none` is NaN); the JS coercion `parseX(v) || d`
  (NaN and 0 are falsy) is the function jsOrQ / jsOrInt below;
* `s || d` on strings (empty string is falsy) is jsOrStr;
* network traffic is reified as lists of request values;
* DOM state (cell text, rows, players, canvases) is reified as
  explicit records, and side effects as effect lists.
-/

/-- One translated segment as handled by the client.  Display-only
fields (speaker label, ratio, per-segment audio paths) play no role in
any claim and are omitted from the record. -/
structure Segment where
  sequence : Int
  timestamp : String
  original_text : String
  translated_text : String
  speed : ℚ
  voice_id : String
deriving DecidableEq

/-- The editable fields addressed by data-field attributes, plus
sequence, which updateSegmentData also knows how to coerce. -/
inductive SegField
  | timestamp
  | original_text
  | translated_text
  | speed
  | voice_id
  | sequence
deriving DecidableEq

/-- A network request issued by TableEditor.updateSegmentData:
the initial read of the whole collection, or the full-collection
write submitted back. -/
inductive NetReq
  | getData
  | postData (segments : List Segment)
deriving DecidableEq

/-- Outcome of TableEditor.updateSegmentData, one constructor per exit
path of the source function. -/
inductive UpdateResult
  | fetchError
  | notFound
  | validationError
  | saveFailed
  | success
deriving DecidableEq

/-- The user input of a cell save: the trimmed text together with the
results of the JS builtins parseFloat and parseInt on it
(none stands for NaN). -/
structure ParsedInput where
  raw : String
  asFloat : Option ℚ
  asInt : Option Int
deriving DecidableEq

/-- JS `x || d` for a parseFloat result: NaN (none) and 0 are falsy. -/
def jsOrQ (o : Option ℚ) (d : ℚ) : ℚ :=
  match o with
  | none => d
  | some x => if x = 0 then d else x

/-- JS `x || d` for a parseInt result: NaN (none) and 0 are falsy. -/
def jsOrInt (o : Option Int) (d : Int) : Int :=
  match o with
  | none => d
  | some x => if x = 0 then d else x

/-- JS `s || d` for a possibly absent string: undefined (none) and the
empty string are falsy. -/
def jsOrStr (o : Option String) (d : String) : String :=
  match o with
  | none => d
  | some s => if s = "" then d else s

/-- `segment[field] = value` after the type coercion block of
updateSegmentData: speed gets `parseFloat(value) || 1.0`, sequence gets
`parseInt(value) || 1`, every other field gets the raw trimmed text. -/
def applyField (field : SegField) (inp : ParsedInput) (s : Segment) : Segment :=
  match field with
  | .speed => { s with speed := jsOrQ inp.asFloat 1 }
  | .sequence => { s with sequence := jsOrInt inp.asInt 1 }
  | .timestamp => { s with timestamp := inp.raw }
  | .original_text => { s with original_text := inp.raw }
  | .translated_text => { s with translated_text := inp.raw }
  | .voice_id => { s with voice_id := inp.raw }

/-- In-place mutation of the first segment whose sequence matches, as
done through `segments.find(...)` followed by `segment[field] = value`. -/
def setFirst (sid : Int) (f : Segment → Segment) : List Segment → List Segment
  | [] => []
  | s :: rest => if s.sequence = sid then f s :: rest else s :: setFirst sid f rest

/-- TableEditor.updateSegmentData (table-editor.js:121-167).
`getOk` / `postOk` model `response.ok` of the two fetches; `server` is
the segment collection returned by the initial GET.  The result records
the requests issued, in order, and the exit path taken. -/
def updateSegmentData (getOk postOk : Bool) (server : List Segment)
    (segmentId : Int) (field : SegField) (inp : ParsedInput) :
    List NetReq × UpdateResult :=
  if getOk = false then ([.getData], .fetchError)
  else
    match server.find? (fun s => s.sequence = segmentId) with
    | none => ([.getData], .notFound)
    | some _ =>
      if field = .speed ∧ (jsOrQ inp.asFloat 1 < 1/2 ∨ 2 < jsOrQ inp.asFloat 1) then
        ([.getData], .validationError)
      else
        let newSegs := setFirst segmentId (applyField field inp) server
        ([.getData, .postData newSegs], if postOk then .success else .saveFailed)

/-! Inline cell editor (table-editor.js:38-119). -/

/-- The JS builtin String.prototype.trim: strip whitespace from both
ends (written out over the character list so that it evaluates inside
the kernel). -/
def jsTrim (s : String) : String :=
  ⟨((s.data.dropWhile Char.isWhitespace).reverse.dropWhile Char.isWhitespace).reverse⟩

/-- One editable table cell: its displayed text, whether it carries the
editing class, and the value of the input control while editing. -/
structure CellModel where
  text : String
  editing : Bool
  inputValue : String
deriving DecidableEq

/-- The cell together with the originalText captured by the closure of
editCell (the trimmed textContent read on entry). -/
structure EditorState where
  cell : CellModel
  original : String
deriving DecidableEq

/-- TableEditor.editCell: no-op on a cell already editing; otherwise
captures `originalText = cell.textContent.trim()`, marks the cell
editing, clears it and shows an input holding originalText. -/
def editCell (st : EditorState) : EditorState :=
  if st.cell.editing then st
  else
    let orig := jsTrim st.cell.text
    { cell := { text := "", editing := true, inputValue := orig }, original := orig }

/-- The user replacing the text of the input control while editing. -/
def typeText (st : EditorState) (v : String) : EditorState :=
  if st.cell.editing then { st with cell := { st.cell with inputValue := v } } else st

/-- TableEditor.cancelEdit (table-editor.js:115-119): removes the
editing class and puts the captured originalText back; it touches no
network, so the request list is empty. -/
def cancelEdit (st : EditorState) (originalText : String) : EditorState × List NetReq :=
  ({ cell := { text := originalText, editing := false, inputValue := "" },
     original := st.original }, [])

/-- TableEditor.saveCell (table-editor.js:86-113): returns immediately
when the cell is not in editing state (the guard that makes a blur
arriving after cancelEdit harmless); otherwise trims the input value,
restores the cell display and runs updateSegmentData.  `pf` / `pi` are
the parseFloat / parseInt results for the trimmed value. -/
def saveCell (st : EditorState) (getOk postOk : Bool) (server : List Segment)
    (sid : Int) (field : SegField) (pf : Option ℚ) (pi : Option Int) :
    EditorState × List NetReq :=
  if st.cell.editing = false then (st, [])
  else
    let newValue := jsTrim st.cell.inputValue
    let out := updateSegmentData getOk postOk server sid field ⟨newValue, pf, pi⟩
    ({ cell := { text := newValue, editing := false, inputValue := "" },
       original := st.original }, out.1)

/-- A full edit session ended by Escape: double-click a cell displaying
`t0`, type `typed`, press Escape.  The keydown closure passes the
originalText captured when the session started. -/
def escapeSession (t0 typed : String) : EditorState × List NetReq :=
  let s0 : EditorState := { cell := { text := t0, editing := false, inputValue := "" },
                            original := "" }
  let s1 := editCell s0
  let s2 := typeText s1 typed
  cancelEdit s2 s1.original

/-! Row insertion, deletion and renumbering
(table-editor.js:216-308). -/

/-- One table row as the editor sees it: the text of the first
(sequence) cell, the data-id of each editable cell, and the targets
bound to the action buttons (absent on rows rendered without the
button). -/
structure Row where
  seqCell : Nat
  dataIds : List Nat
  regenTarget : Option Nat
  deleteTarget : Option Nat
deriving DecidableEq

/-- The row template of addNewRow: five editable cells (timestamp,
original text, translated text, speed, voice id) all tagged with the
new sequence, plus regenerate and delete buttons targeting it. -/
def mkNewRow (n : Nat) : Row :=
  { seqCell := n, dataIds := [n, n, n, n, n], regenTarget := some n, deleteTarget := some n }

/-- The segment table body: either the single placeholder row
(a td with colspan shown when there is no data) or the list of data
rows in display order. -/
inductive TableState
  | placeholder
  | rows (rs : List Row)
deriving DecidableEq

/-- TableEditor.addNewRow (table-editor.js:216-257).  The row count is
read from a NodeList captured before the placeholder branch clears the
body, so from the placeholder state the stale count 1 makes the new and
only row carry sequence 2. -/
def addNewRow : TableState → TableState
  | .placeholder => .rows [mkNewRow 2]
  | .rows rs => .rows (rs ++ [mkNewRow (rs.length + 1)])

/-- The per-row body of TableEditor.renumberRows: the sequence cell,
every editable cell data-id and every bound action button are rewritten
to position + 1. -/
def renumberRow (i : Nat) (r : Row) : Row :=
  { seqCell := i + 1,
    dataIds := r.dataIds.map (fun _ => i + 1),
    regenTarget := r.regenTarget.map (fun _ => i + 1),
    deleteTarget := r.deleteTarget.map (fun _ => i + 1) }

/-- TableEditor.renumberRows (table-editor.js:277-308). -/
def renumberRows (rs : List Row) : List Row :=
  rs.enum.map (fun p => renumberRow p.1 p.2)

/-- TableEditor.deleteRow (table-editor.js:260-274): behind the confirm
gate, removes the parent row of the first editable cell in document
order whose data-id matches, then renumbers. -/
def deleteRowOp (confirmed : Bool) (seq : Nat) : TableState → TableState
  | .placeholder => .placeholder
  | .rows rs =>
    if confirmed then
      match rs.findIdx? (fun r => r.dataIds.contains seq) with
      | none => .rows rs
      | some i => .rows (renumberRows (rs.eraseIdx i))
    else .rows rs

/-- The renumbering invariant of the spec: row at position i displays
sequence i+1, and every editable cell data-id and bound button target
of that row equals i+1. -/
def tableInvariant : TableState → Prop
  | .placeholder => True
  | .rows rs => ∀ p ∈ rs.enum,
      p.2.seqCell = p.1 + 1 ∧
      (∀ d ∈ p.2.dataIds, d = p.1 + 1) ∧
      (∀ t ∈ p.2.regenTarget, t = p.1 + 1) ∧
      (∀ t ∈ p.2.deleteTarget, t = p.1 + 1)

instance : DecidablePred tableInvariant := fun ts =>
  match ts with
  | .placeholder => inferInstanceAs (Decidable True)
  | .rows _ => inferInstanceAs (Decidable (∀ _ ∈ _, _))

/-! Log buffer (main.js:1161-1188). -/

/-- One entry of the in-memory log buffer. -/
structure LogEntry where
  timestamp : String
  level : String
  message : String
deriving DecidableEq

/-- JS `l.slice(-n)`: the suffix of the last n elements. -/
def sliceLast (n : Nat) (l : List α) : List α :=
  l.drop (l.length - n)

/-- VideoTranslatorApp.addLog, buffer part (main.js:1161-1188): push the
new entry, then if the buffer length exceeds 500 keep only the last 400
entries. -/
def addLog (logs : List LogEntry) (e : LogEntry) : List LogEntry :=
  let l := logs ++ [e]
  if l.length > 500 then sliceLast 400 l else l

/-! Debounced configuration auto-save (main.js:141-201). -/

/-- The seven configuration fields read by saveConfig from the form. -/
structure Config where
  api_endpoint : String
  group_id : String
  api_key : String
  source_language : String
  target_language : String
  asr_model : String
  tts_model : String
deriving DecidableEq

/-- An event on the auto-save timeline, with its time in ms:
a call of autoSaveConfig (fired by blur on an input or change on a
select), or the form field values changing (typing happens without a
trigger until the field loses focus). -/
inductive CfgEvent
  | trigger (t : Nat)
  | setFields (t : Nat) (c : Config)
deriving DecidableEq

/-- The debounce state: current form field values, the absolute
deadline of the pending setTimeout if one is scheduled, and the bodies
of the POST /api/config requests issued so far, in order. -/
structure DebounceState where
  fields : Config
  pending : Option Nat
  requests : List Config
deriving DecidableEq

/-- The pending setTimeout fires (running saveConfig, which reads the
form at that moment) if its deadline lies strictly before the time now
reached; a trigger arriving at the deadline itself clears the timeout
first, as clearTimeout does for a not yet executed callback. -/
def fireIfDue (st : DebounceState) (t : Nat) : DebounceState :=
  match st.pending with
  | some d =>
    if d < t then { st with pending := none, requests := st.requests ++ [st.fields] }
    else st
  | none => st

/-- One timeline event: autoSaveConfig (main.js:141-154) clears the
pending timer and schedules saveConfig 500 ms ahead; a field change
just updates the form values. -/
def stepCfg (st : DebounceState) : CfgEvent → DebounceState
  | .trigger t =>
    let st1 := fireIfDue st t
    { st1 with pending := some (t + 500) }
  | .setFields t c =>
    let st1 := fireIfDue st t
    { st1 with fields := c }

/-- Let any still pending timer expire after the last event. -/
def flushCfg (st : DebounceState) : DebounceState :=
  match st.pending with
  | some _ => { st with pending := none, requests := st.requests ++ [st.fields] }
  | none => st

/-- Run an auto-save timeline to quiescence. -/
def runCfg (st : DebounceState) (evs : List CfgEvent) : DebounceState :=
  flushCfg (evs.foldl stepCfg st)

/-- The form field values after all setFields events of the timeline,
that is the values present when the debounced save finally fires. -/
def finalFields (c0 : Config) : List CfgEvent → Config
  | [] => c0
  | .trigger _ :: rest => finalFields c0 rest
  | .setFields _ c :: rest => finalFields c rest

/-- The form field values present at the moment of the last trigger of
the timeline (the value the claim says the save request carries). -/
def fieldsAtLastTrigger (c0 : Config) (evs : List CfgEvent) : Config :=
  (evs.foldl (fun (p : Config × Config) e =>
    match e with
    | .setFields _ c => (c, p.2)
    | .trigger _ => (p.1, p.1)) (c0, c0)).2

/-- Does the timeline contain an auto-save trigger at all? -/
def hasTrigger (evs : List CfgEvent) : Bool :=
  evs.any (fun e => match e with | .trigger _ => true | .setFields _ _ => false)

/-- A burst relative to the time of the last trigger already seen
(none before the first one): every event up to the next trigger stays
within 500 ms of that trigger, so no intermediate timer can expire.
This is the shape the debounce claim quantifies over. -/
inductive Burst : Option Nat → List CfgEvent → Prop
  | nil (o : Option Nat) : Burst o []
  | trigFirst {t : Nat} {evs : List CfgEvent} :
      Burst (some t) evs → Burst none (.trigger t :: evs)
  | setFirst {t : Nat} {c : Config} {evs : List CfgEvent} :
      Burst none evs → Burst none (.setFields t c :: evs)
  | trigNext {t0 t : Nat} {evs : List CfgEvent} :
      t ≤ t0 + 500 → Burst (some t) evs → Burst (some t0) (.trigger t :: evs)
  | setNext {t0 t : Nat} {c : Config} {evs : List CfgEvent} :
      t ≤ t0 + 500 → Burst (some t0) evs → Burst (some t0) (.setFields t c :: evs)

/-! Progress polling, snapshot application and audio-path diffing
(main.js:333-483). -/

/-- The four audio roles previewed during processing. -/
inductive Role
  | vocals
  | background
  | synthesized
  | finalMixed
deriving DecidableEq

/-- A polled Processing Snapshot, as consumed by the progress monitor.
processing_status is kept as the raw string the server sent. -/
structure Snapshot where
  processing_status : String
  progress : Option Nat
  current_step : Option String
  segments : Option (List Segment)
  segment_count : Option Nat
  vocals_available : Bool
  vocals_path : Option String
  background_available : Bool
  background_path : Option String
  synthesized_available : Bool
  synthesized_path : Option String
  finalMixed_available : Bool
  finalMixed_path : Option String
deriving DecidableEq

/-- The availability flag of a role in a snapshot. -/
def snapAvailable (d : Snapshot) : Role → Bool
  | .vocals => d.vocals_available
  | .background => d.background_available
  | .synthesized => d.synthesized_available
  | .finalMixed => d.finalMixed_available

/-- The audio path of a role in a snapshot. -/
def snapPath (d : Snapshot) : Role → Option String
  | .vocals => d.vocals_path
  | .background => d.background_path
  | .synthesized => d.synthesized_path
  | .finalMixed => d.finalMixed_path

/-- JS truthiness of a possibly absent string. -/
def truthy : Option String → Bool
  | none => false
  | some s => s ≠ ""

/-- The audio URL built for a path.  encodeURIComponent is injective
and never produces an empty encoding of a nonempty path, so equality
of the resulting URL pathnames coincides with equality of the paths;
the encoding itself is dropped. -/
def audioUrl (p : String) : String := "/api/audio/" ++ p

/-- A side effect of the audio preview update for one role:
assigning player.src plus player.load(), the waveform decode and draw,
the playback-progress listener setup, clearing the canvas, or one of
the three status labels. -/
inductive AudioEffect
  | setSrcLoad (r : Role) (path : String)
  | drawWaveform (r : Role) (path : String)
  | setupSync (r : Role)
  | clearCanvas (r : Role)
  | statusDone (r : Role)
  | statusProcessing (r : Role)
  | statusNone (r : Role)
deriving DecidableEq

/-- The role an audio effect acts on. -/
def effRole : AudioEffect → Role
  | .setSrcLoad r _ => r
  | .drawWaveform r _ => r
  | .setupSync r => r
  | .clearCanvas r => r
  | .statusDone r => r
  | .statusProcessing r => r
  | .statusNone r => r

/-- The effects of a poll that touch one given role. -/
def effectsFor (r : Role) (effs : List AudioEffect) : List AudioEffect :=
  effs.filter (fun e => effRole e == r)

/-- The per-role player and cache state of the synchronizer: the
lastAudioPaths entry (read back through `|| ''`, so the empty string
doubles as absent) and the pathname of the audio player src attribute
(the pathname of the page URL, here "/", while no src is set). -/
structure AudioUI where
  cache : Role → String
  player : Role → String

/-- Pointwise update of a role-indexed state function. -/
def setRole (f : Role → String) (r : Role) (v : String) : Role → String :=
  fun r2 => if r2 = r then v else f r2

/-- VideoTranslatorApp.updateAudioPreview (main.js:411-483) for one
role, acting on the pathname currently held by the player and
returning the new pathname together with the effects performed:
with an available truthy path the player src is replaced, reloaded and
the waveform redrawn only when the URL pathname differs, and the done
status is set; a truthy path that is not yet available shows the
processing status and clears the canvas; otherwise the idle status is
shown and the canvas cleared. -/
def updateAudioPreview (playerPath : String) (r : Role) (available : Bool)
    (path : Option String) : String × List AudioEffect :=
  if available && truthy path then
    let p := path.getD ""
    let newPath := audioUrl p
    if playerPath ≠ newPath then
      (newPath, [.setSrcLoad r p, .drawWaveform r p, .setupSync r, .statusDone r])
    else
      (playerPath, [.statusDone r])
  else if truthy path then
    (playerPath, [.statusProcessing r, .clearCanvas r])
  else
    (playerPath, [.statusNone r, .clearCanvas r])

/-- One iteration of the audioUpdates.forEach loop of
VideoTranslatorApp.updateBackgroundAudio (main.js:387-408): the
snapshot path (through `|| ''`) is compared with the cached path and
the preview update runs only on a difference, after which the cache
holds the new path. -/
def processRole (st : AudioUI) (d : Snapshot) (r : Role) : AudioUI × List AudioEffect :=
  let currentPath := (snapPath d r).getD ""
  let lastPath := st.cache r
  if currentPath ≠ lastPath then
    let u := updateAudioPreview (st.player r) r (snapAvailable d r) (snapPath d r)
    ({ cache := setRole st.cache r currentPath, player := setRole st.player r u.1 }, u.2)
  else (st, [])

/-- The audioUpdates.forEach loop: process the given roles left to
right, threading the cache and player state and concatenating the
effects. -/
def processRoles (st : AudioUI) (d : Snapshot) : List Role → AudioUI × List AudioEffect
  | [] => (st, [])
  | r :: rest =>
    let u := processRole st d r
    let v := processRoles u.1 d rest
    (v.1, u.2 ++ v.2)

/-- VideoTranslatorApp.updateBackgroundAudio: the four roles processed
in the order of the audioUpdates array literal. -/
def updateBackgroundAudio (st : AudioUI) (d : Snapshot) : AudioUI × List AudioEffect :=
  processRoles st d [.vocals, .background, .synthesized, .finalMixed]

/-- The non-audio part of the page the poll updates: progress bar
percentage, current step label, the rendered segment table and the
segment count label. -/
structure UIState where
  progressPercent : Nat
  currentStep : String
  table : List Segment
  segmentCountLabel : Nat
deriving DecidableEq

/-- VideoTranslatorApp.updateProgress (main.js:365-384): progress bar
and step text are set from the snapshot unconditionally; the segment
table is rebuilt only when the snapshot carries a nonempty segment
list; then the audio previews are diffed and the count label set. -/
def updateProgress (ui : UIState) (au : AudioUI) (d : Snapshot) :
    UIState × AudioUI × List AudioEffect :=
  let ui1 : UIState :=
    { progressPercent := d.progress.getD 0,
      currentStep := jsOrStr d.current_step "等待中...",
      table :=
        match d.segments with
        | some segs => if segs.length > 0 then segs else ui.table
        | none => ui.table,
      segmentCountLabel := d.segment_count.getD 0 }
  let u := updateBackgroundAudio au d
  (ui1, u.1, u.2)

/-- The state of the progress monitor started by
VideoTranslatorApp.startProgressMonitoring: whether the interval timer
is still installed, the isProcessing flag, whether the start button is
disabled, and the page state the polls update. -/
structure MonitorState where
  timerActive : Bool
  isProcessing : Bool
  startDisabled : Bool
  ui : UIState
  audio : AudioUI

/-- A discrete effect of one poll tick, beyond the state fields:
re-enabling the start control (restoring its label and clearing
disabled), the completion log line, the completion notification, and
the translated-video preview fetch. -/
inductive MonitorEffect
  | enableStartBtn
  | logCompleted
  | notifyCompleted
  | videoPreviewFetch
deriving DecidableEq

/-- Does a tick with this fetch result and snapshot take the
termination branch? -/
def isTerm (ok : Bool) (d : Snapshot) : Bool :=
  ok && (d.processing_status == "completed" || d.processing_status == "error")

/-- The effect list of the termination branch. -/
def termEffects (d : Snapshot) : List MonitorEffect :=
  if d.processing_status = "completed" then
    [.enableStartBtn, .logCompleted, .notifyCompleted, .videoPreviewFetch]
  else [.enableStartBtn]

/-- One firing of the 2000 ms interval of startProgressMonitoring
(main.js:333-362): nothing happens if the interval was cleared; a
failed fetch (response not ok, or a thrown error reaching the catch)
skips the tick; otherwise the snapshot is applied through
updateProgress and, on a completed or error status, the interval is
cleared, isProcessing reset and the start control re-enabled, with the
extra completion effects when the status is completed. -/
def pollTick (st : MonitorState) (ok : Bool) (d : Snapshot) :
    MonitorState × List MonitorEffect :=
  if st.timerActive = false then (st, [])
  else if ok = false then (st, [])
  else
    let u := updateProgress st.ui st.audio d
    let st1 : MonitorState := { st with ui := u.1, audio := u.2.1 }
    if d.processing_status = "completed" ∨ d.processing_status = "error" then
      ({ st1 with timerActive := false, isProcessing := false, startDisabled := false },
       termEffects d)
    else (st1, [])

/-- A sequence of poll ticks, collecting all effects in order. -/
def runTicks (st : MonitorState) : List (Bool × Snapshot) → MonitorState × List MonitorEffect
  | [] => (st, [])
  | e :: rest =>
    let u := pollTick st e.1 e.2
    let v := runTicks u.1 rest
    (v.1, u.2 ++ v.2)

/-! Concrete fixtures used by witnesses and counterexamples. -/

/-- A one-element server collection. -/
def seg1 : Segment := ⟨1, "0.0-3.0", "hello", "你好", 1, "female-1"⟩

/-- Blank configuration. -/
def cfgZero : Config := ⟨"", "", "", "", "", "", ""⟩

/-- A configuration as of some early moment of a burst. -/
def cfgA : Config := ⟨"https://api.minimaxi.com", "g1", "k1", "中文", "英语", "whisper-base", "speech-01"⟩

/-- The configuration after a later field edit. -/
def cfgB : Config := ⟨"https://api.other.example", "g1", "k1", "中文", "英语", "whisper-base", "speech-01"⟩

/-- A burst whose form fields change again after the last trigger:
fields become cfgA, a blur triggers at 10 ms, a second blur at 200 ms,
then typing changes the fields to cfgB at 300 ms without a trigger. -/
def burstCex : List CfgEvent :=
  [.setFields 0 cfgA, .trigger 10, .trigger 200, .setFields 300 cfgB]

/-- A well-behaved burst of three triggers, all gaps within 500 ms. -/
def burstW : List CfgEvent :=
  [.trigger 0, .setFields 100 cfgB, .trigger 200, .trigger 300]

/-- Audio state before any poll: empty cache, no player src. -/
def auInit : AudioUI := ⟨fun _ => "", fun _ => "/"⟩

/-- Page state before any poll. -/
def uiInit : UIState := ⟨0, "", [], 0⟩

/-- A snapshot of a still running job carrying nothing else. -/
def snapBase : Snapshot :=
  ⟨"running", none, none, none, none, false, none, false, none, false, none, false, none⟩

/-- The same snapshot with a completed status. -/
def snapDone : Snapshot := { snapBase with processing_status := "completed" }

/-- A running snapshot announcing a separated vocals file. -/
def snapVocals : Snapshot :=
  { snapBase with vocals_available := true, vocals_path := some "a.wav" }

/-- Monitor state right after processing started: timer installed,
start control disabled. -/
def monInit : MonitorState := ⟨true, true, true, uiInit, auInit⟩

/-! Helper lemmas. -/

theorem setFirst_congr (sid : Int) {f g : Segment → Segment} (h : ∀ s, f s = g s) :
    ∀ l, setFirst sid f l = setFirst sid g l := by
  intro l
  induction l with
  | nil => rfl
  | cons s rest ih => simp only [setFirst, h, ih]

/-! Claim C1. -/

/-- Claim C1 (counterexample): the input "0" parses to 0, which lies
outside [0.5, 2.0], yet updateSegmentData raises no validation error:
the JS coercion parseFloat(value) || 1.0 turns it into 1.0, and a
full-collection write carrying speed 1 is submitted. -/
theorem speedPatch_zero_cex :
    ((0:ℚ) < 1/2) ∧
    updateSegmentData true true [seg1] 1 .speed ⟨"0", some 0, some 0⟩ =
      ([.getData, .postData [{ seg1 with speed := 1 }]], .success) := by
  constructor
  · norm_num
  · simp [updateSegmentData, jsOrQ, seg1, setFirst, applyField]
    norm_num

/-- Claim C1 (amended): on a patch of the speed field with the target
segment present, an input parsing to a nonzero value outside
[0.5, 2.0] raises the validation error and only the initial read is
issued; an input parsing inside [0.5, 2.0] — the bounds 0.5 and 2.0
included — is accepted and the write carries exactly that speed; an
input parsing to 0 is silently coerced to speed 1 and written. -/
theorem speedPatch_validation (postOk : Bool) (server : List Segment)
    (sid : Int) (inp : ParsedInput) (x : ℚ)
    (hx : inp.asFloat = some x)
    (hfound : (server.find? (fun s => s.sequence = sid)).isSome = true) :
    (x ≠ 0 → (x < 1/2 ∨ 2 < x) →
      updateSegmentData true postOk server sid .speed inp = ([.getData], .validationError)) ∧
    (1/2 ≤ x → x ≤ 2 →
      updateSegmentData true postOk server sid .speed inp =
        ([.getData, .postData (setFirst sid (fun s => { s with speed := x }) server)],
         if postOk then .success else .saveFailed)) ∧
    (x = 0 →
      updateSegmentData true postOk server sid .speed inp =
        ([.getData, .postData (setFirst sid (fun s => { s with speed := 1 }) server)],
         if postOk then .success else .saveFailed)) := by
  obtain ⟨s0, hs0⟩ := Option.isSome_iff_exists.mp hfound
  refine ⟨?_, ?_, ?_⟩
  · intro hx0 hrange
    have hq : jsOrQ inp.asFloat 1 = x := by simp [jsOrQ, hx, hx0]
    have hr : True ∧ (jsOrQ inp.asFloat 1 < 1/2 ∨ 2 < jsOrQ inp.asFloat 1) := by
      rw [hq]
      exact ⟨trivial, hrange⟩
    simp only [updateSegmentData, hs0]
    rw [if_neg (show ¬(true = false) by simp), if_pos hr]
  · intro hlo hhi
    have hx0 : x ≠ 0 := by
      intro h0
      rw [h0] at hlo
      norm_num at hlo
    have hq : jsOrQ inp.asFloat 1 = x := by simp [jsOrQ, hx, hx0]
    have hnr : ¬ (True ∧ (jsOrQ inp.asFloat 1 < 1/2 ∨ 2 < jsOrQ inp.asFloat 1)) := by
      rw [hq]
      rintro ⟨-, h | h⟩
      · exact absurd h (not_lt.mpr hlo)
      · exact absurd h (not_lt.mpr hhi)
    have hset : setFirst sid (applyField .speed inp) server =
        setFirst sid (fun s => { s with speed := x }) server := by
      refine setFirst_congr sid (fun s => ?_) server
      simp [applyField, hq]
    simp only [updateSegmentData, hs0]
    rw [if_neg (show ¬(true = false) by simp), if_neg hnr, hset]
  · intro hx0
    have hq : jsOrQ inp.asFloat 1 = 1 := by simp [jsOrQ, hx, hx0]
    have hnr : ¬ (True ∧ (jsOrQ inp.asFloat 1 < 1/2 ∨ 2 < jsOrQ inp.asFloat 1)) := by
      rw [hq]
      norm_num
    have hset : setFirst sid (applyField .speed inp) server =
        setFirst sid (fun s => { s with speed := 1 }) server := by
      refine setFirst_congr sid (fun s => ?_) server
      simp [applyField, hq]
    simp only [updateSegmentData, hs0]
    rw [if_neg (show ¬(true = false) by simp), if_neg hnr, hset]

/-- Claim C1 witness: the inclusive upper bound, input parsing to
exactly 2, is accepted and written as speed 2. -/
theorem speedPatch_validation_witness :
    updateSegmentData true true [seg1] 1 .speed ⟨"2", some 2, some 2⟩ =
      ([.getData, .postData [{ seg1 with speed := 2 }]], .success) := by
  have h := (speedPatch_validation true [seg1] 1 ⟨"2", some 2, some 2⟩ 2 rfl
    (by simp [seg1])).2.1 (by norm_num) (by norm_num)
  rw [h]
  simp [setFirst, seg1]

/-! Claim C4. -/

/-- Claim C4 (counterexample): a speed value parsing to 3 is locally
rejected with the validation error, yet the request trace of the save
operation is not empty: the read of the full collection
(GET /api/data) was already issued before validation ran. -/
theorem validationReject_request_cex :
    updateSegmentData true true [seg1] 1 .speed ⟨"3", some 3, some 3⟩ =
      ([.getData], .validationError) ∧
    ([NetReq.getData] : List NetReq) ≠ [] := by
  constructor
  · simp [updateSegmentData, jsOrQ, seg1, setFirst, applyField]
    norm_num
  · simp

/-- Claim C4 (amended): a save rejected by local validation issues no
write request: its whole network trace is the single initial read, so
the collection write (POST /api/data) is never submitted. -/
theorem validationReject_no_write (getOk postOk : Bool) (server : List Segment)
    (sid : Int) (field : SegField) (inp : ParsedInput)
    (h : (updateSegmentData getOk postOk server sid field inp).2 = .validationError) :
    (updateSegmentData getOk postOk server sid field inp).1 = [.getData] := by
  unfold updateSegmentData at h ⊢
  cases getOk with
  | false => simp at h
  | true =>
    rw [if_neg (show ¬(true = false) by simp)] at h ⊢
    cases hf : List.find? (fun s => decide (s.sequence = sid)) server with
    | none => rfl
    | some s0 =>
      rw [hf] at h
      dsimp only at h ⊢
      by_cases hc : field = SegField.speed ∧
          (jsOrQ inp.asFloat 1 < 1/2 ∨ 2 < jsOrQ inp.asFloat 1)
      · rw [if_pos hc]
      · rw [if_neg hc] at h
        cases postOk with
        | false => simp at h
        | true => simp at h

/-- Claim C4 witness: a concrete rejected input whose trace is exactly
the single read request. -/
theorem validationReject_no_write_witness :
    (updateSegmentData true true [seg1] 1 .speed ⟨"5", some 5, some 5⟩).1 =
      [NetReq.getData] := by
  refine validationReject_no_write true true [seg1] 1 .speed ⟨"5", some 5, some 5⟩ ?_
  simp [updateSegmentData, jsOrQ, seg1]
  norm_num

/-! Claim C9. -/

/-- Claim C9 (counterexample): the input "-5" parses to the negative
integer -5, which the claim says must not be committed, yet the update
succeeds and the submitted collection carries sequence -5: the code
only applies parseInt(value) || 1 and never checks positivity. -/
theorem sequencePatch_negative_cex :
    updateSegmentData true true [seg1] 1 .sequence ⟨"-5", some (-5), some (-5)⟩ =
      ([.getData, .postData [{ seg1 with sequence := -5 }]], .success) ∧
    ¬ (0 < (-5 : Int)) := by
  constructor
  · simp [updateSegmentData, jsOrQ, jsOrInt, seg1, setFirst, applyField]
  · decide

/-- Claim C9 (amended): a sequence-field patch with the target present
never rejects: it always submits the full collection with the target
sequence set to parseInt(value) || 1 — the parsed integer whenever it
is nonzero, negative values included, and 1 when the input parses to 0
or does not parse. -/
theorem sequencePatch_commit (postOk : Bool) (server : List Segment)
    (sid : Int) (inp : ParsedInput)
    (hfound : (server.find? (fun s => s.sequence = sid)).isSome = true) :
    updateSegmentData true postOk server sid .sequence inp =
      ([.getData,
        .postData (setFirst sid (fun s => { s with sequence := jsOrInt inp.asInt 1 }) server)],
       if postOk then .success else .saveFailed) := by
  obtain ⟨s0, hs0⟩ := Option.isSome_iff_exists.mp hfound
  have hset : setFirst sid (applyField .sequence inp) server =
      setFirst sid (fun s => { s with sequence := jsOrInt inp.asInt 1 }) server := by
    refine setFirst_congr sid (fun s => ?_) server
    simp [applyField]
  simp only [updateSegmentData, hs0]
  rw [if_neg (show ¬(true = false) by simp),
    if_neg (show ¬(SegField.sequence = SegField.speed ∧
      (jsOrQ inp.asFloat 1 < 1/2 ∨ 2 < jsOrQ inp.asFloat 1)) by rintro ⟨h, -⟩; cases h),
    hset]

/-- Claim C9 witness: the commit of the negative parse -5. -/
theorem sequencePatch_commit_witness :
    updateSegmentData true true [seg1] 1 .sequence ⟨"-5", some (-5), some (-5)⟩ =
      ([.getData, .postData [{ seg1 with sequence := -5 }]], .success) := by
  have h := sequencePatch_commit true [seg1] 1 ⟨"-5", some (-5), some (-5)⟩ (by simp [seg1])
  rw [h]
  simp [setFirst, seg1, jsOrInt]

/-! Claim C7. -/

/-- Claim C7 (counterexample): a cell displaying the text
space-F-o-o, edited and then cancelled with Escape, afterwards
displays Foo — the captured originalText is the trimmed textContent,
so the restoration is not verbatim when the pre-edit text carries
surrounding whitespace. -/
theorem escapeSession_trim_cex :
    (escapeSession " Foo" "Bar").1.cell.text ≠ " Foo" ∧
    (escapeSession " Foo" "Bar").1.cell.text = "Foo" := by
  constructor
  · decide
  · decide

/-- Claim C7 (amended): an editing session ended by Escape restores the
trimmed pre-edit text and issues no network request — the displayed
text equals the pre-edit text verbatim exactly when that text carries
no leading or trailing whitespace (as in the Foo example); moreover a
blur-triggered save arriving after the cancellation is a no-op with an
empty request trace, because the editing flag is already cleared. -/
theorem escapeSession_restore (t0 typed : String) :
    (escapeSession t0 typed).1.cell.text = jsTrim t0 ∧
    (escapeSession t0 typed).2 = [] ∧
    (jsTrim t0 = t0 → (escapeSession t0 typed).1.cell.text = t0) ∧
    (∀ (getOk postOk : Bool) (server : List Segment) (sid : Int) (field : SegField)
       (pf : Option ℚ) (pi : Option Int),
       (saveCell (escapeSession t0 typed).1 getOk postOk server sid field pf pi).2 = []) := by
  refine ⟨?_, ?_, ?_, ?_⟩
  · simp [escapeSession, editCell, typeText, cancelEdit]
  · simp [escapeSession, editCell, typeText, cancelEdit]
  · intro ht
    simp [escapeSession, editCell, typeText, cancelEdit, ht]
  · intro getOk postOk server sid field pf pi
    simp [escapeSession, editCell, typeText, cancelEdit, saveCell]

/-- Claim C7 witness: the Foo / Bar scenario of the spec: the cell
shows Foo again and the session issued no request. -/
theorem escapeSession_restore_witness :
    (escapeSession "Foo" "Bar").1.cell.text = "Foo" ∧
    (escapeSession "Foo" "Bar").2 = [] := by
  have h := escapeSession_restore "Foo" "Bar"
  exact ⟨h.2.2.1 (by decide), h.2.1⟩

/-! Claim C2. -/

/-- Claim C2 (code bug): inserting a row into the empty table showing
the placeholder breaks the renumbering invariant: the row count is
taken from a NodeList captured before the placeholder row is removed,
so the single new row is numbered 2 while display position 1 demands
sequence 1. -/
theorem addNewRow_placeholder_bug :
    addNewRow .placeholder = .rows [mkNewRow 2] ∧
    ¬ tableInvariant (addNewRow .placeholder) ∧
    tableInvariant (.rows [mkNewRow 1]) := by
  refine ⟨rfl, ?_, ?_⟩
  · decide
  · decide

/-! Claim C10. -/

/-- Claim C10: starting from a buffer within the 500-entry bound,
addLog keeps the bound: and whenever the push makes the buffer exceed
500 entries, the buffer becomes exactly the most recent 400 entries of
the pushed list, in order, so its length is 400. -/
theorem addLog_buffer_bound (logs : List LogEntry) (e : LogEntry)
    (h : logs.length ≤ 500) :
    (addLog logs e).length ≤ 500 ∧
    ((logs ++ [e]).length > 500 →
      addLog logs e = sliceLast 400 (logs ++ [e]) ∧ (addLog logs e).length = 400) := by
  unfold addLog sliceLast
  by_cases hl : (logs ++ [e]).length > 500
  · rw [if_pos hl]
    have hlen : (logs ++ [e]).length = 501 := by
      simp at hl ⊢
      omega
    refine ⟨?_, ?_⟩
    · simp [hlen]
    · intro _
      exact ⟨rfl, by simp [hlen]⟩
  · rw [if_neg hl]
    simp at hl
    refine ⟨?_, ?_⟩
    · simpa using hl
    · intro hgt
      exact absurd hgt (by simpa using hl)

/-- Claim C10 witness: pushing onto a full 500-entry buffer trims it to
the most recent 400 entries. -/
theorem addLog_buffer_bound_witness :
    (addLog (List.replicate 500 ⟨"t", "INFO", "m"⟩) ⟨"t", "INFO", "m"⟩).length = 400 := by
  have h := addLog_buffer_bound (List.replicate 500 ⟨"t", "INFO", "m"⟩) ⟨"t", "INFO", "m"⟩
    (by rw [List.length_replicate])
  exact (h.2 (by rw [List.length_append, List.length_replicate]; norm_num)).2

/-! Claim C8. -/

theorem burst_fold {o : Option Nat} {evs : List CfgEvent} (h : Burst o evs) :
    ∀ (c0 : Config) (reqs : List Config),
      (o = none →
        (hasTrigger evs = true →
          ∃ t1, evs.foldl stepCfg ⟨c0, none, reqs⟩ =
            ⟨finalFields c0 evs, some (t1 + 500), reqs⟩) ∧
        (hasTrigger evs = false →
          evs.foldl stepCfg ⟨c0, none, reqs⟩ = ⟨finalFields c0 evs, none, reqs⟩)) ∧
      (∀ t0, o = some t0 →
        ∃ t1, evs.foldl stepCfg ⟨c0, some (t0 + 500), reqs⟩ =
          ⟨finalFields c0 evs, some (t1 + 500), reqs⟩) := by
  induction h with
  | nil o =>
    intro c0 reqs
    refine ⟨fun _ => ⟨fun ht => ?_, fun _ => rfl⟩, fun t0 _ => ⟨t0, rfl⟩⟩
    · simp [hasTrigger] at ht
  | @trigFirst t evs2 hb ih =>
    intro c0 reqs
    refine ⟨fun _ => ⟨fun _ => ?_, fun hf => ?_⟩, fun t0 hsome => nomatch hsome⟩
    · have hstep : stepCfg ⟨c0, none, reqs⟩ (.trigger t) = ⟨c0, some (t + 500), reqs⟩ := rfl
      simp only [List.foldl_cons, hstep]
      exact ((ih c0 reqs).2 t rfl).imp (fun t1 ht1 => by
        rw [ht1]
        simp [finalFields])
    · simp [hasTrigger] at hf
  | @setFirst t c evs2 hb ih =>
    intro c0 reqs
    refine ⟨fun _ => ⟨fun ht => ?_, fun hf => ?_⟩, fun t0 hsome => nomatch hsome⟩
    · have hstep : stepCfg ⟨c0, none, reqs⟩ (.setFields t c) = ⟨c, none, reqs⟩ := rfl
      simp only [List.foldl_cons, hstep]
      have ht2 : hasTrigger evs2 = true := by simpa [hasTrigger] using ht
      exact (((ih c reqs).1 rfl).1 ht2).imp (fun t1 ht1 => by
        rw [ht1]
        simp [finalFields])
    · have hstep : stepCfg ⟨c0, none, reqs⟩ (.setFields t c) = ⟨c, none, reqs⟩ := rfl
      simp only [List.foldl_cons, hstep]
      have hf2 : hasTrigger evs2 = false := by simpa [hasTrigger] using hf
      rw [((ih c reqs).1 rfl).2 hf2]
      simp [finalFields]
  | @trigNext t0x t evs2 hle hb ih =>
    intro c0 reqs
    refine And.intro (fun hnone => nomatch hnone) (fun t0 hsome => ?_)
    cases hsome
    have hstep : stepCfg ⟨c0, some (t0x + 500), reqs⟩ (.trigger t) =
        ⟨c0, some (t + 500), reqs⟩ := by
      simp [stepCfg, fireIfDue, Nat.not_lt.mpr hle]
    simp only [List.foldl_cons, hstep]
    exact ((ih c0 reqs).2 t rfl).imp (fun t1 ht1 => by
      rw [ht1]
      simp [finalFields])
  | @setNext t0x t c evs2 hle hb ih =>
    intro c0 reqs
    refine And.intro (fun hnone => nomatch hnone) (fun t0 hsome => ?_)
    cases hsome
    have hstep : stepCfg ⟨c0, some (t0x + 500), reqs⟩ (.setFields t c) =
        ⟨c, some (t0x + 500), reqs⟩ := by
      simp [stepCfg, fireIfDue, Nat.not_lt.mpr hle]
    simp only [List.foldl_cons, hstep]
    exact ((ih c reqs).2 t0x rfl).imp (fun t1 ht1 => by
      rw [ht1]
      simp [finalFields])

/-- Claim C8 (counterexample): in burstCex the two triggers at 10 ms
and 200 ms are 190 ms apart, well within 500 ms, and exactly one save
request goes out — but it carries cfgB, the field values present when
the debounced save fired, while the values present at the moment of the
last trigger were cfgA: a field edited after the last trigger but
before the timer expiry is shipped, so the claim about the carried
values is false. -/
theorem debounce_fire_values_cex :
    (runCfg ⟨cfgZero, none, []⟩ burstCex).requests = [cfgB] ∧
    fieldsAtLastTrigger cfgZero burstCex = cfgA ∧
    cfgB ≠ cfgA := by
  refine ⟨by decide, by decide, by decide⟩

/-- Claim C8 (amended): over any burst — every trigger and every field
change lying within 500 ms of the previous trigger — containing at
least one trigger, exactly one save request is issued, and it carries
the field values present when the debounced save fires (500 ms after
the last trigger); these coincide with the values at the last trigger
whenever no field changes during that final window. -/
theorem debounce_single_request (evs : List CfgEvent) (c0 : Config)
    (hb : Burst none evs) (ht : hasTrigger evs = true) :
    (runCfg ⟨c0, none, []⟩ evs).requests = [finalFields c0 evs] := by
  obtain ⟨t1, heq⟩ := ((burst_fold hb c0 []).1 rfl).1 ht
  unfold runCfg
  rw [heq]
  rfl

/-- Claim C8 witness: three triggers 0, 200, 300 with one field change
at 100 ms produce the single request carrying cfgB. -/
theorem debounce_single_request_witness :
    (runCfg ⟨cfgZero, none, []⟩ burstW).requests = [cfgB] := by
  have hb : Burst none burstW :=
    .trigFirst (.setNext (by decide) (.trigNext (by decide) (.trigNext (by decide) (.nil _))))
  have h := debounce_single_request burstW cfgZero hb (by decide)
  rw [h]
  decide

/-! Claim C5. -/

/-- Claim C5: a poll whose snapshot carries an empty or missing segment
list leaves the rendered segment table unchanged, while the progress
bar percentage and the current-step text are still set from the
snapshot (through the JS falsy defaults 0 and the waiting label). -/
theorem updateProgress_empty_segments (ui : UIState) (au : AudioUI) (d : Snapshot)
    (h : d.segments = none ∨ d.segments = some ([] : List Segment)) :
    (updateProgress ui au d).1.table = ui.table ∧
    (updateProgress ui au d).1.progressPercent = d.progress.getD 0 ∧
    (updateProgress ui au d).1.currentStep = jsOrStr d.current_step "等待中..." := by
  cases h with
  | inl hn => exact ⟨by simp [updateProgress, hn], rfl, rfl⟩
  | inr he => exact ⟨by simp [updateProgress, he], rfl, rfl⟩

/-- Claim C5 witness: a running snapshot with no segment list leaves
the initial empty table in place and sets the defaults. -/
theorem updateProgress_empty_segments_witness :
    (updateProgress uiInit auInit snapBase).1.table = uiInit.table ∧
    (updateProgress uiInit auInit snapBase).1.progressPercent = 0 ∧
    (updateProgress uiInit auInit snapBase).1.currentStep = "等待中..." := by
  have h := updateProgress_empty_segments uiInit auInit snapBase (Or.inl rfl)
  exact ⟨h.1, h.2.1, h.2.2⟩

/-! Claim C6. -/

theorem processRole_effects_role (st : AudioUI) (d : Snapshot) (r : Role) :
    ∀ e ∈ (processRole st d r).2, effRole e = r := by
  intro e he
  unfold processRole at he
  by_cases hne : (snapPath d r).getD "" ≠ st.cache r
  · rw [if_pos hne] at he
    unfold updateAudioPreview at he
    by_cases h1 : snapAvailable d r && truthy (snapPath d r)
    · rw [if_pos h1] at he
      by_cases h2 : st.player r ≠ audioUrl ((snapPath d r).getD "")
      · rw [if_pos h2] at he
        simp at he
        rcases he with h | h | h | h <;> simp [h, effRole]
      · rw [if_neg h2] at he
        simp at he
        simp [he, effRole]
    · rw [if_neg h1] at he
      by_cases h3 : truthy (snapPath d r)
      · rw [if_pos h3] at he
        simp at he
        rcases he with h | h <;> simp [h, effRole]
      · rw [if_neg h3] at he
        simp at he
        rcases he with h | h <;> simp [h, effRole]
  · rw [if_neg hne] at he
    simp at he

theorem processRole_cache_self (st : AudioUI) (d : Snapshot) (r : Role) :
    (processRole st d r).1.cache r = (snapPath d r).getD "" := by
  unfold processRole
  by_cases hne : (snapPath d r).getD "" ≠ st.cache r
  · rw [if_pos hne]
    simp [setRole]
  · rw [if_neg hne]
    simp at hne
    exact hne.symm

theorem processRole_cache_other (st : AudioUI) (d : Snapshot) (r r2 : Role)
    (h : r2 ≠ r) : (processRole st d r).1.cache r2 = st.cache r2 := by
  unfold processRole
  by_cases hne : (snapPath d r).getD "" ≠ st.cache r
  · rw [if_pos hne]
    simp [setRole, h]
  · rw [if_neg hne]

theorem processRole_skip (st : AudioUI) (d : Snapshot) (r : Role)
    (h : (snapPath d r).getD "" = st.cache r) : processRole st d r = (st, []) := by
  unfold processRole
  rw [if_neg (by simpa using h)]

theorem effectsFor_append (r : Role) (a b : List AudioEffect) :
    effectsFor r (a ++ b) = effectsFor r a ++ effectsFor r b := by
  simp [effectsFor]

theorem effectsFor_other (st : AudioUI) (d : Snapshot) (r r2 : Role) (h : r2 ≠ r) :
    effectsFor r2 (processRole st d r).2 = [] := by
  unfold effectsFor
  rw [List.filter_eq_nil_iff]
  intro e he
  have := processRole_effects_role st d r e he
  simp [this, h.symm]

theorem processRoles_cache (d : Snapshot) (r : Role) :
    ∀ (rs : List Role) (st : AudioUI),
      (processRoles st d rs).1.cache r =
        if r ∈ rs then (snapPath d r).getD "" else st.cache r := by
  intro rs
  induction rs with
  | nil =>
    intro st
    simp [processRoles]
  | cons r0 rest ih =>
    intro st
    simp only [processRoles]
    rw [ih]
    by_cases hmem : r ∈ rest
    · simp [hmem, List.mem_cons]
    · by_cases hr : r = r0
      · subst hr
        simp [hmem, processRole_cache_self]
      · simp [hmem, hr, processRole_cache_other st d r0 r hr]

theorem processRoles_effectsFor_same (d : Snapshot) (r : Role) :
    ∀ (rs : List Role) (st : AudioUI),
      (snapPath d r).getD "" = st.cache r →
      effectsFor r (processRoles st d rs).2 = [] := by
  intro rs
  induction rs with
  | nil =>
    intro st _
    simp [processRoles, effectsFor]
  | cons r0 rest ih =>
    intro st h
    simp only [processRoles]
    rw [effectsFor_append]
    by_cases hr : r0 = r
    · subst hr
      rw [processRole_skip st d r0 h]
      rw [ih st h]
      simp [effectsFor]
    · rw [effectsFor_other st d r0 r (fun e => hr e.symm)]
      rw [ih (processRole st d r0).1
        (by rw [processRole_cache_other st d r0 r (fun e => hr e.symm)]; exact h)]
      simp

theorem updateBackgroundAudio_cache (st : AudioUI) (d : Snapshot) (r : Role) :
    (updateBackgroundAudio st d).1.cache r = (snapPath d r).getD "" := by
  unfold updateBackgroundAudio
  rw [processRoles_cache]
  have hmem : r ∈ [Role.vocals, Role.background, Role.synthesized, Role.finalMixed] := by
    cases r <;> simp
  simp [hmem]

theorem poll_effectsFor_same (st : AudioUI) (d : Snapshot) (r : Role)
    (h : (snapPath d r).getD "" = st.cache r) :
    effectsFor r (updateBackgroundAudio st d).2 = [] := by
  unfold updateBackgroundAudio
  exact processRoles_effectsFor_same d r _ st h

/-- Claim C6: given two consecutive snapshots whose path for a role is
identical (read through the JS falsy default), the second poll performs
no effect at all for that role — in particular no src reassignment, no
reload, no waveform decode or redraw; and in any poll a role sees
effects only when its snapshot path differs from the cached path. -/
theorem audioPathDiff_suppression (st : AudioUI) (d1 d2 : Snapshot) (r : Role)
    (h : (snapPath d2 r).getD "" = (snapPath d1 r).getD "") :
    effectsFor r (updateBackgroundAudio (updateBackgroundAudio st d1).1 d2).2 = [] ∧
    (∀ (st0 : AudioUI) (d : Snapshot),
      effectsFor r (updateBackgroundAudio st0 d).2 ≠ [] →
      (snapPath d r).getD "" ≠ st0.cache r) := by
  constructor
  · refine poll_effectsFor_same _ d2 r ?_
    rw [updateBackgroundAudio_cache]
    exact h
  · intro st0 d hne heq
    exact hne (poll_effectsFor_same st0 d r heq)

/-- Claim C6 witness: a second poll repeating the vocals path a.wav
performs no vocals effect. -/
theorem audioPathDiff_suppression_witness :
    effectsFor .vocals
      (updateBackgroundAudio (updateBackgroundAudio auInit snapVocals).1 snapVocals).2 = [] := by
  exact (audioPathDiff_suppression auInit snapVocals snapVocals .vocals rfl).1

/-! Claim C3. -/

theorem pollTick_inactive (st : MonitorState) (ok : Bool) (d : Snapshot)
    (h : st.timerActive = false) : pollTick st ok d = (st, []) := by
  unfold pollTick
  rw [if_pos h]

theorem runTicks_inactive (st : MonitorState) (h : st.timerActive = false) :
    ∀ evs, runTicks st evs = (st, []) := by
  intro evs
  induction evs with
  | nil => rfl
  | cons e rest ih =>
    simp [runTicks, pollTick_inactive st e.1 e.2 h, ih]

theorem pollTick_nonterm (st : MonitorState) (ok : Bool) (d : Snapshot)
    (ha : st.timerActive = true) (hn : isTerm ok d = false) :
    (pollTick st ok d).1.timerActive = true ∧ (pollTick st ok d).2 = [] := by
  unfold pollTick
  rw [if_neg (by simp [ha])]
  cases ok with
  | false => simpa using ha
  | true =>
    rw [if_neg (by simp)]
    have hst : ¬ (d.processing_status = "completed" ∨ d.processing_status = "error") := by
      simpa [isTerm] using hn
    rw [if_neg hst]
    simpa using ha

theorem pollTick_term (st : MonitorState) (ok : Bool) (d : Snapshot)
    (ha : st.timerActive = true) (ht : isTerm ok d = true) :
    (pollTick st ok d).1.timerActive = false ∧ (pollTick st ok d).2 = termEffects d := by
  have hok : ok = true := by
    cases ok with
    | false => simp [isTerm] at ht
    | true => rfl
  subst hok
  have hst : d.processing_status = "completed" ∨ d.processing_status = "error" := by
    simpa [isTerm] using ht
  unfold pollTick
  rw [if_neg (by simp [ha]), if_neg (by simp), if_pos hst]
  exact ⟨rfl, rfl⟩

theorem runTicks_term_aux :
    ∀ (evs : List (Bool × Snapshot)) (st0 : MonitorState),
      st0.timerActive = true →
      evs.any (fun e => isTerm e.1 e.2) = true →
      (runTicks st0 evs).1.timerActive = false ∧
      (∀ e, evs.find? (fun e => isTerm e.1 e.2) = some e →
        (runTicks st0 evs).2 = termEffects e.2) := by
  intro evs
  induction evs with
  | nil =>
    intro st0 _ hany
    simp at hany
  | cons e0 rest ih =>
    intro st0 h0 hany
    cases hf : isTerm e0.1 e0.2 with
    | true =>
      have hstep := pollTick_term st0 e0.1 e0.2 h0 hf
      have hrest := runTicks_inactive (pollTick st0 e0.1 e0.2).1 hstep.1 rest
      constructor
      · simp only [runTicks, hrest]
        exact hstep.1
      · intro e he
        rw [List.find?_cons_of_pos (p := fun e => isTerm e.1 e.2) rest hf] at he
        cases he
        simp only [runTicks, hrest, hstep.2, List.append_nil]
    | false =>
      have hstep := pollTick_nonterm st0 e0.1 e0.2 h0 hf
      have hany2 : rest.any (fun e => isTerm e.1 e.2) = true := by
        simpa [hf] using hany
      have ihr := ih (pollTick st0 e0.1 e0.2).1 hstep.1 hany2
      constructor
      · simp only [runTicks]
        exact ihr.1
      · intro e he
        rw [List.find?_cons_of_neg (p := fun e => isTerm e.1 e.2) rest (by simp [hf])] at he
        simp only [runTicks, hstep.2, List.nil_append]
        exact ihr.2 e he

/-- Claim C3: over any tick sequence containing a successful fetch of a
terminal snapshot (processing_status completed or error), the monitor
of startProgressMonitoring ends with the interval cancelled; the whole
effect trace equals the termination effects of the first such snapshot
— so the start control is re-enabled exactly once, the video-preview
fetch happens exactly once when that snapshot is completed and never
when it is an error — and any further ticks leave the state untouched
and produce no effects. -/
theorem pollTermination (st0 : MonitorState) (evs : List (Bool × Snapshot))
    (h0 : st0.timerActive = true)
    (hterm : evs.any (fun e => isTerm e.1 e.2) = true) :
    (runTicks st0 evs).1.timerActive = false ∧
    (∀ e, evs.find? (fun e => isTerm e.1 e.2) = some e →
      (runTicks st0 evs).2 = termEffects e.2 ∧
      (runTicks st0 evs).2.count .enableStartBtn = 1 ∧
      (runTicks st0 evs).2.count .videoPreviewFetch =
        (if e.2.processing_status = "completed" then 1 else 0)) ∧
    (∀ evs2, runTicks (runTicks st0 evs).1 evs2 = ((runTicks st0 evs).1, [])) := by
  have haux := runTicks_term_aux evs st0 h0 hterm
  refine ⟨haux.1, ?_, fun evs2 => runTicks_inactive _ haux.1 evs2⟩
  intro e he
  have heff := haux.2 e he
  refine ⟨heff, ?_, ?_⟩
  · rw [heff]
    unfold termEffects
    by_cases hc : e.2.processing_status = "completed"
    · rw [if_pos hc]
      rfl
    · rw [if_neg hc]
      rfl
  · rw [heff]
    unfold termEffects
    by_cases hc : e.2.processing_status = "completed"
    · rw [if_pos hc, if_pos hc]
      rfl
    · rw [if_neg hc, if_neg hc]
      rfl

/-- Claim C3 witness: a single successful tick with a completed
snapshot cancels the timer, re-enables the start control once,
fetches the video preview once, and a later tick is a no-op. -/
theorem pollTermination_witness :
    (runTicks monInit [(true, snapDone)]).1.timerActive = false ∧
    (runTicks monInit [(true, snapDone)]).2 =
      [.enableStartBtn, .logCompleted, .notifyCompleted, .videoPreviewFetch] ∧
    (runTicks monInit [(true, snapDone)]).2.count .enableStartBtn = 1 ∧
    runTicks (runTicks monInit [(true, snapDone)]).1 [(true, snapBase)] =
      ((runTicks monInit [(true, snapDone)]).1, []) := by
  have h := pollTermination monInit [(true, snapDone)] rfl (by rfl)
  have he := h.2.1 (true, snapDone) (by rfl)
  refine ⟨h.1, ?_, he.2.1, h.2.2 [(true, snapBase)]⟩
  rw [he.1]
  rfl
